import Mathlib

/-!
# Verification of the FDB microservice repository

Shallow embedding, in Lean 4, of the parts of the FDB repository
(auth_service, storage_service, data_service) that the verified claims
are about.  Database tables (users, groups, storage_files and the
association tables users_files, groups_files, users_groups) are modelled
as Lean lists of rows; ORM relationship collections are the corresponding
filters of the association lists; fallible repository functions are
state-passing functions into `Except`, where an `Except.error` outcome
corresponds to an HTTP exception being raised before `session.commit()`,
so the database state is unchanged in that case.
-/

namespace FDB

/-! ## storage_service: models.py and exceptions.py -/

namespace StorageService

/-- A row of the `storage_files` table (`app/models.py`, class `StorageFile`).
Upload/update timestamps are omitted (wall-clock values, irrelevant to the
claims); ids are `Int`, UUIDs are represented as `String`. -/
structure StorageFile where
  id : Int
  creator_id : String
  filename : String
  path : String
  size : Int
  type_id : Int
  version : Int
  based_on_id : Option Int
deriving DecidableEq, Repr

/-- A row of the `groups` table (`app/models.py`, class `Group`). -/
structure Group where
  id : Int
  creator_id : String
  name : String
deriving DecidableEq, Repr

/-- The storage-service database state: the `users`, `storage_files` and
`groups` tables plus the three association tables.  `users_files` rows are
(user_id, file_id), `groups_files` rows are (group_id, file_id),
`users_groups` rows are (user_id, group_id), as in `app/models.py`. -/
structure StorageState where
  users : List String
  files : List StorageFile
  groups : List Group
  users_files : List (String × Int)
  groups_files : List (Int × Int)
  users_groups : List (String × Int)
deriving DecidableEq, Repr

/-- The HTTP exceptions of `storage_service/app/exceptions.py`, by name;
`keyError` stands for the untranslated Python `KeyError` that
`FileTypeEnum[...]` raises for an unknown extension. -/
inductive StorageException where
  | filePermission
  | fileNotFound
  | userNotFound
  | usersNotFound (user_ids : List String)
  | fileExists (user_ids : List String)
  | groupNotFound
  | groupPermission
  | fileGroupExists (name : String)
  | userAccessToStorageFile
  | fileInGroupNotFound
  | keyError
deriving DecidableEq, Repr

/-- `status_code` of each exception constant in `app/exceptions.py`. -/
def StorageException.status_code : StorageException → Nat
  | .filePermission => 403
  | .fileNotFound => 404
  | .userNotFound => 404
  | .usersNotFound _ => 404
  | .fileExists _ => 400
  | .groupNotFound => 404
  | .groupPermission => 403
  | .fileGroupExists _ => 400
  | .userAccessToStorageFile => 403
  | .fileInGroupNotFound => 404
  | .keyError => 500

/-- `StorageFilePermission.has_user_access_to_file` (`app/permissions.py`):
the user-groups subquery, the users_files membership check and the
groups_files membership check, combined with `or`. -/
def has_user_access_to_file (user_id : String) (file_id : Int)
    (db : StorageState) : Bool :=
  let user_groups_subquery :=
    (db.users_groups.filter (fun r => r.1 = user_id)).map (fun r => r.2)
  let user_file_exists :=
    db.users_files.any (fun r => decide (r.1 = user_id ∧ r.2 = file_id))
  let group_file_exists :=
    db.groups_files.any (fun r =>
      decide (r.2 = file_id ∧ r.1 ∈ user_groups_subquery))
  user_file_exists || group_file_exists

/-- `user.files` of the ORM: the ids of the files related to `user_id`
through `users_files`. -/
def StorageState.userFiles (st : StorageState) (user_id : String) :
    List Int :=
  (st.users_files.filter (fun r => r.1 = user_id)).map (fun r => r.2)

/-- `storage_file.users` of the ORM: the ids of the users related to
`file_id` through `users_files`. -/
def StorageState.fileUsers (st : StorageState) (file_id : Int) :
    List String :=
  (st.users_files.filter (fun r => r.2 = file_id)).map (fun r => r.1)

/-- `group.users` of the ORM: the ids of the users related to `group_id`
through `users_groups`. -/
def StorageState.groupUsers (st : StorageState) (group_id : Int) :
    List String :=
  (st.users_groups.filter (fun r => r.2 = group_id)).map (fun r => r.1)

/-- `group.files` of the ORM: the ids of the files related to `group_id`
through `groups_files`. -/
def StorageState.groupFiles (st : StorageState) (group_id : Int) :
    List Int :=
  (st.groups_files.filter (fun r => r.1 = group_id)).map (fun r => r.2)

/-- `select_user` (`app/repository.py`): the user with the given id, or
`UserNotFoundException`. -/
def select_user (user_id : String) (st : StorageState) :
    Except StorageException String :=
  if user_id ∈ st.users then .ok user_id else .error .userNotFound

/-- `select_users` (`app/repository.py`): the users whose id is in
`user_ids`; raises `UsersNotFoundException` when the number of requested
ids differs from the number of users found. -/
def select_users (st : StorageState) (user_ids : List String) :
    Except StorageException (List String) :=
  let users := st.users.filter (fun u => u ∈ user_ids)
  if user_ids.length ≠ users.length then
    .error (.usersNotFound (user_ids.filter (fun x => x ∉ users)))
  else .ok users

/-- `select_file` (`app/repository.py`): the file with the given id, or
`FileNotFoundException`. -/
def select_file (file_id : Int) (st : StorageState) :
    Except StorageException StorageFile :=
  match st.files.find? (fun f => f.id = file_id) with
  | none => .error .fileNotFound
  | some f => .ok f

/-- `select_group` (`app/repository.py`): the group with the given id, or
`GroupNotFoundException`. -/
def select_group (group_id : Int) (st : StorageState) :
    Except StorageException Group :=
  match st.groups.find? (fun g => g.id = group_id) with
  | none => .error .groupNotFound
  | some g => .ok g

/-- `StogareController.get_filetype_id` (`app/storage.py`): the
`FileTypeEnum` value for the filename's extension (csv = 1, xlsx = 2,
xls = 3); `none` models the `KeyError` that `FileTypeEnum[...]` raises
for any other extension. -/
def get_filetype_id (filename : String) : Option Int :=
  let parts := filename.splitOn "."
  let ext := if parts.length ≤ 1 then "" else parts.getLastD ""
  if ext = "csv" then some 1
  else if ext = "xlsx" then some 2
  else if ext = "xls" then some 3
  else none

/-- `create_user_file` (`app/repository.py`): build the `StorageFile` row
(the database assigns a fresh autoincrement id), check the creator exists,
append the row and the (creator, file) association, and commit. -/
def create_user_file (filename path : String) (size : Int)
    (user_id : String) (version : Int) (based_on_id : Option Int)
    (st : StorageState) : Except StorageException (StorageFile × StorageState) :=
  match get_filetype_id filename with
  | none => .error .keyError
  | some tid =>
    let new_id := (st.files.map (fun f => f.id)).foldr max 0 + 1
    let created_file : StorageFile :=
      ⟨new_id, user_id, filename, path, size, tid, version, based_on_id⟩
    match select_user user_id st with
    | .error e => .error e
    | .ok _ =>
      .ok (created_file,
        { st with
          files := st.files ++ [created_file],
          users_files := st.users_files ++ [(user_id, new_id)] })

/-- `add_file_to_user` (`app/repository.py`): only the creator may share;
the target user must exist and must not already have the file. -/
def add_file_to_user (user_id to_user_id : String) (file_id : Int)
    (st : StorageState) : Except StorageException StorageState :=
  match select_file file_id st with
  | .error e => .error e
  | .ok storage_file =>
    if user_id ≠ storage_file.creator_id then .error .filePermission
    else
      match select_user to_user_id st with
      | .error e => .error e
      | .ok _ =>
        if file_id ∈ st.userFiles to_user_id then
          .error (.fileExists [to_user_id])
        else .ok { st with users_files := st.users_files ++ [(to_user_id, file_id)] }

/-- `add_file_to_users` (`app/repository.py`): only the creator may share;
all target users must exist and none may already have the file. -/
def add_file_to_users (user_id : String) (to_user_ids : List String)
    (file_id : Int) (st : StorageState) : Except StorageException StorageState :=
  match select_file file_id st with
  | .error e => .error e
  | .ok storage_file =>
    if user_id ≠ storage_file.creator_id then .error .filePermission
    else
      match select_users st to_user_ids with
      | .error e => .error e
      | .ok users =>
        let users_with_file :=
          users.filter (fun u => u ∈ st.fileUsers file_id)
        if users_with_file ≠ [] then .error (.fileExists users_with_file)
        else .ok { st with
          users_files := st.users_files ++ users.map (fun u => (u, file_id)) }

/-- `remove_file` (`app/repository.py`): `session.delete(storage_file)`;
the database cascades the delete to the `users_files` and `groups_files`
rows of the file (`ondelete="CASCADE"`) and nulls `based_on_id` references
(`ondelete="SET NULL"`). -/
def remove_file (storage_file : StorageFile) (st : StorageState) :
    Except StorageException StorageState :=
  .ok { st with
    files := (st.files.filter (fun f => f.id ≠ storage_file.id)).map
      (fun f => if f.based_on_id = some storage_file.id then
        { f with based_on_id := none } else f),
    users_files := st.users_files.filter (fun r => r.2 ≠ storage_file.id),
    groups_files := st.groups_files.filter (fun r => r.2 ≠ storage_file.id) }

/-- `remove_user_from_file` (`app/repository.py`): the user must exist and
be related to the file; removes the association row. -/
def remove_user_from_file (storage_file : StorageFile) (user_id : String)
    (st : StorageState) : Except StorageException StorageState :=
  match select_user user_id st with
  | .error e => .error e
  | .ok _ =>
    if user_id ∉ st.fileUsers storage_file.id then
      .error .userAccessToStorageFile
    else
      .ok { st with
        users_files :=
          st.users_files.eraseP
            (fun r => decide (r.1 = user_id ∧ r.2 = storage_file.id)) }

/-- `add_file_for_group` (`app/repository.py`): only the creator may share;
the requester must belong to the group and the file must not already be in
it. -/
def add_file_for_group (user_id : String) (group_id : Int) (file_id : Int)
    (st : StorageState) : Except StorageException StorageState :=
  match select_file file_id st with
  | .error e => .error e
  | .ok storage_file =>
    if user_id ≠ storage_file.creator_id then .error .filePermission
    else
      match select_group group_id st with
      | .error e => .error e
      | .ok group =>
        if user_id ∉ st.groupUsers group.id then .error .groupPermission
        else if file_id ∈ st.groupFiles group.id then
          .error (.fileGroupExists group.name)
        else .ok { st with groups_files := st.groups_files ++ [(group.id, file_id)] }

/-- `remove_file_from_group` (`app/repository.py`): the file must exist
and be related to the group; removes the association row. -/
def remove_file_from_group (group : Group) (file_id : Int)
    (st : StorageState) : Except StorageException StorageState :=
  match select_file file_id st with
  | .error e => .error e
  | .ok storage_file =>
    if file_id ∉ st.groupFiles group.id then .error .fileInGroupNotFound
    else
      .ok { st with
        groups_files :=
          st.groups_files.eraseP
            (fun r => decide (r.1 = group.id ∧ r.2 = storage_file.id)) }

/-- The state an operation leaves behind: the new state on success, the
unchanged input state when an exception was raised before the commit. -/
def stateAfter (r : Except StorageException StorageState)
    (st : StorageState) : StorageState :=
  match r with
  | .ok st' => st'
  | .error _ => st

/-- Like `stateAfter`, for `create_user_file`, which also returns the
created row. -/
def stateAfterCreate (r : Except StorageException (StorageFile × StorageState))
    (st : StorageState) : StorageState :=
  match r with
  | .ok (_, st') => st'
  | .error _ => st

/-- Referential integrity of the association state: every `users_files`
row references an existing user and an existing file, and every
`groups_files` row references an existing group and an existing file. -/
def refIntegrity (st : StorageState) : Prop :=
  (∀ r ∈ st.users_files,
    r.1 ∈ st.users ∧ ∃ f ∈ st.files, f.id = r.2) ∧
  (∀ r ∈ st.groups_files,
    (∃ g ∈ st.groups, g.id = r.1) ∧ ∃ f ∈ st.files, f.id = r.2)

end StorageService

/-! ## data_service: data/exceptions.py, memory.py, data/routers.py -/

namespace DataService

/-- An abstract cell of a pandas column: the claims only need integer and
boolean payloads. -/
inductive Cell where
  | int (n : Int)
  | bool (b : Bool)
deriving DecidableEq, Repr

/-- `int(cell)`, as used by `Series.astype(int)`: booleans become 0/1. -/
def Cell.toInt : Cell → Int
  | .int n => n
  | .bool b => if b then 1 else 0

/-- A pandas `Series`: a dtype flag (whether `result.dtype` is
`np.dtypes.BoolDType`) and the cell values (via `.to_list()`). -/
structure Series where
  isBoolDtype : Bool
  values : List Cell
deriving DecidableEq, Repr

/-- `result.astype(int)` on a Series. -/
def Series.astypeInt (s : Series) : Series :=
  ⟨false, s.values.map (fun c => Cell.int c.toInt)⟩

/-- A pandas `DataFrame`, column-major: a list of (column name, cells). -/
structure DataFrame where
  cols : List (String × List Cell)
deriving DecidableEq, Repr

/-- `df.columns`. -/
def DataFrame.columns (df : DataFrame) : List String := df.cols.map Prod.fst

/-- `df.to_dict()` of the column-major model. -/
def DataFrame.to_dict (df : DataFrame) : List (String × List Cell) := df.cols

/-- `df[name] = values`: replaces the column when present, appends it
otherwise. -/
def DataFrame.setCol (df : DataFrame) (name : String) (vals : List Cell) :
    DataFrame :=
  if name ∈ df.columns then
    ⟨df.cols.map (fun p => if p.1 = name then (p.1, vals) else p)⟩
  else ⟨df.cols ++ [(name, vals)]⟩

/-- The library exceptions that `df.eval` / `df.query` can raise and that
`calculate` / `filter_data` catch.  `ufuncNoLoopError` models
`np._core._exceptions._UFuncNoLoopError`, which is a subclass of
`TypeError` in numpy, so a bare `except TypeError` also catches it. -/
inductive PdError where
  | undefinedVariable (name : String)
  | valueError
  | syntaxError
  | typeError
  | ufuncNoLoopError
deriving DecidableEq, Repr

/-- A successful `df.eval` result: either a Series or a DataFrame. -/
inductive EvalValue where
  | series (s : Series)
  | dataframe (d : DataFrame)
deriving DecidableEq, Repr

/-- The HTTP exceptions of `data_service/app/data/exceptions.py` and
`app/exceptions.py` that the claims mention, by name. -/
inductive DataException where
  | columnsNotFound (columns : List String)
  | columnsExists (columns : List String)
  | evalError
  | evalTypeError
  | dataNotFound
deriving DecidableEq, Repr

/-- `status_code` of each exception in the source: `ColumnsNotFoundException`
and `ColumnsExistsException` use HTTP_404_NOT_FOUND, `EvalException` and
`EvalTypeException` use HTTP_400_BAD_REQUEST, `DataNotFound` uses
HTTP_404_NOT_FOUND. -/
def DataException.status_code : DataException → Nat
  | .columnsNotFound _ => 404
  | .columnsExists _ => 404
  | .evalError => 400
  | .evalTypeError => 400
  | .dataNotFound => 404

/-- `ParamsForCalculate` (`data/schemas.py`): expression, target column
name and the `update_df` / `rewrite` / `convert_bool` flags (defaults
false / false / true). -/
structure ParamsForCalculate where
  expr : String
  update_df : Bool
  column_name : String
  rewrite : Bool
  convert_bool : Bool
deriving DecidableEq, Repr

/-- `ParamsForExpr` (`data/schemas.py`). -/
structure ParamsForExpr where
  expr : String
  update_df : Bool
deriving DecidableEq, Repr

/-- The `calculate` endpoint (`data/routers.py`), with the outcome of the
library call `df.eval(params.expr)` passed in as `evalResult` (the
evaluator is external to this repository).  Returns the JSON payload
`{params.column_name: result.to_list()}` together with the dataframe the
endpoint leaves in Redis (unchanged when `update_df` is false). -/
def calculate (params : ParamsForCalculate) (df : DataFrame)
    (evalResult : Except PdError EvalValue) :
    Except DataException (List (String × List Cell) × DataFrame) :=
  if params.column_name ∈ df.columns ∧ params.rewrite = false then
    .error (.columnsExists [params.column_name])
  else
    match evalResult with
    | .error (.undefinedVariable n) => .error (.columnsNotFound [n])
    | .error .valueError => .error .evalError
    | .error .syntaxError => .error .evalError
    | .error .typeError => .error .evalTypeError
    | .error .ufuncNoLoopError => .error .evalTypeError
    | .ok (.dataframe _) => .error .evalError
    | .ok (.series s) =>
      let result :=
        if params.convert_bool = true ∧ s.isBoolDtype = true then
          s.astypeInt
        else s
      let df' :=
        if params.update_df = true then
          df.setCol params.column_name result.values
        else df
      .ok ([(params.column_name, result.values)], df')

/-- The `filter_data` endpoint (`data/routers.py`), with the outcome of the
library call `df.query(params.expr)` passed in as `queryResult`.  Returns
`filtered_df.to_dict()` together with the dataframe left in Redis. -/
def filter_data (params : ParamsForExpr) (df : DataFrame)
    (queryResult : Except PdError DataFrame) :
    Except DataException (List (String × List Cell) × DataFrame) :=
  match queryResult with
  | .error (.undefinedVariable n) => .error (.columnsNotFound [n])
  | .error .valueError => .error .evalError
  | .error .syntaxError => .error .evalError
  | .error .typeError => .error .evalTypeError
  | .error .ufuncNoLoopError => .error .evalTypeError
  | .ok filtered_df =>
    let df' := if params.update_df = true then filtered_df else df
    .ok (filtered_df.to_dict, df')

/-- A Python object that the service pickles into Redis: a DataFrame or a
file id. -/
inductive PickleObj where
  | df (d : DataFrame)
  | int (n : Int)
deriving DecidableEq, Repr

/-- A pickled blob (`pickle.dumps` output). -/
structure PickleBlob where
  obj : PickleObj
deriving DecidableEq, Repr

/-- `pickle.dumps`. -/
def pickle_dumps (o : PickleObj) : PickleBlob := ⟨o⟩

/-- `pickle.loads`. -/
def pickle_loads (b : PickleBlob) : PickleObj := b.obj

/-- The Redis key-value store: `redis.set` binds a key (most recent binding
first), `redis.get` returns the most recent binding. -/
abbrev RedisState := List (String × PickleBlob)

/-- `redis.set(key, v)`. -/
def redis_set (st : RedisState) (key : String) (v : PickleBlob) : RedisState :=
  (key, v) :: st

/-- `redis.get(key)`: the most recent binding, `none` when the key is
unbound. -/
def redis_get (st : RedisState) (key : String) : Option PickleBlob :=
  (st.find? (fun p => decide (p.1 = key))).map Prod.snd

/-- `RedisConnection.set_dataframe` (`app/memory.py`): stores the pickled
dataframe under `f"{user_id}_data"` and, when a file id is given, the
pickled file id under `f"{user_id}_file_id"`. -/
def set_dataframe (st : RedisState) (user_id : String) (df : DataFrame)
    (file_id : Option Int) : RedisState :=
  let st1 := redis_set st (user_id ++ "_data") (pickle_dumps (.df df))
  match file_id with
  | some fid => redis_set st1 (user_id ++ "_file_id") (pickle_dumps (.int fid))
  | none => st1

/-- `RedisConnection.set_file_id` (`app/memory.py`). -/
def set_file_id (st : RedisState) (user_id : String) (file_id : Int) :
    RedisState :=
  redis_set st (user_id ++ "_file_id") (pickle_dumps (.int file_id))

/-- `RedisConnection.get_dataframe` (`app/memory.py`): raises `DataNotFound`
when the key is unbound, otherwise returns `pickle.loads` of the blob
(untyped in the source, hence `PickleObj`). -/
def get_dataframe (st : RedisState) (user_id : String) :
    Except DataException PickleObj :=
  match redis_get st (user_id ++ "_data") with
  | none => .error .dataNotFound
  | some b => .ok (pickle_loads b)

/-- `RedisConnection.get_filet_id` (`app/memory.py`). -/
def get_filet_id (st : RedisState) (user_id : String) :
    Except DataException PickleObj :=
  match redis_get st (user_id ++ "_file_id") with
  | none => .error .dataNotFound
  | some b => .ok (pickle_loads b)

/-- A storing operation on the per-user Redis cache. -/
inductive RedisOp where
  | setDf (user_id : String) (df : DataFrame) (file_id : Option Int)
  | setFid (user_id : String) (file_id : Int)
deriving DecidableEq, Repr

/-- Apply one storing operation. -/
def applyOp (st : RedisState) : RedisOp → RedisState
  | .setDf u df fid => set_dataframe st u df fid
  | .setFid u fid => set_file_id st u fid

/-- Run a list of storing operations, first element first. -/
def runOps (st : RedisState) : List RedisOp → RedisState
  | [] => st
  | op :: ops => runOps (applyOp st op) ops

/-- Contribution of a single operation to the dataframe stored for `u`. -/
def opDf (u : String) : RedisOp → Option DataFrame
  | .setDf u' df _ => if u' = u then some df else none
  | .setFid _ _ => none

/-- Contribution of a single operation to the file id stored for `u`. -/
def opFid (u : String) : RedisOp → Option Int
  | .setDf u' _ (some fid) => if u' = u then some fid else none
  | .setDf _ _ none => none
  | .setFid u' fid => if u' = u then some fid else none

/-- The last dataframe stored for user `u` by a trace of operations
(later operations override earlier ones). -/
def lastDf (u : String) : List RedisOp → Option DataFrame
  | [] => none
  | op :: ops => (lastDf u ops).orElse (fun _ => opDf u op)

/-- The last file id stored for user `u` by a trace of operations. -/
def lastFid (u : String) : List RedisOp → Option Int
  | [] => none
  | op :: ops => (lastFid u ops).orElse (fun _ => opFid u op)

end DataService

/-! ## auth_service: group/models.py, group/exceptions.py,
group/repository.py -/

namespace AuthService

/-- The HTTP exceptions of `auth_service/app/group/exceptions.py`. -/
inductive GroupException where
  | userNotFound
  | usersNotFound (user_ids : List String)
  | groupNotFound
  | groupPermission
  | groupExists
  | usersInGroupExists (user_ids : List String)
  | containsUserInGroup
deriving DecidableEq, Repr

/-- `status_code` of each exception in `group/exceptions.py`. -/
def GroupException.status_code : GroupException → Nat
  | .userNotFound => 404
  | .usersNotFound _ => 404
  | .groupNotFound => 404
  | .groupPermission => 403
  | .groupExists => 400
  | .usersInGroupExists _ => 400
  | .containsUserInGroup => 400

/-- A `groups` row (`group/models.py`) together with its loaded `users`
relationship: the ids of the users related to it through `users_groups`. -/
structure Group where
  id : Int
  creator_id : String
  name : String
  users : List String
deriving DecidableEq, Repr

/-- The auth-service database state: the `users` table (row ids) and the
`groups` table with loaded memberships. -/
structure AuthState where
  users : List String
  groups : List Group
deriving DecidableEq, Repr

/-- `select_group` (`group/repository.py`): the group with the given id,
or `GroupNotFoundException`. -/
def select_group (group_id : Int) (st : AuthState) :
    Except GroupException Group :=
  match st.groups.find? (fun g => g.id = group_id) with
  | none => .error .groupNotFound
  | some g => .ok g

/-- `select_users` (`group/repository.py`): the users whose id is in
`user_ids`; raises `UsersNotFoundException` (with the ids for which no
user was returned) when the number of requested ids differs from the
number of users found. -/
def select_users (st : AuthState) (user_ids : List String) :
    Except GroupException (List String) :=
  let users := st.users.filter (fun u => u ∈ user_ids)
  if user_ids.length ≠ users.length then
    .error (.usersNotFound (user_ids.filter (fun x => x ∉ users)))
  else .ok users

/-- `add_users_to_group` (`group/repository.py`): fetch the group, check
the requester's membership, fetch the target users, check none is already
a member, then extend the group's membership.  An `Except.error` outcome
corresponds to an exception raised before `session.commit()`, so the
database state is unchanged in that case. -/
def add_users_to_group (user_id : String) (to_user_ids : List String)
    (group_id : Int) (st : AuthState) : Except GroupException AuthState :=
  match select_group group_id st with
  | .error e => .error e
  | .ok group =>
    if user_id ∉ group.users then .error .groupPermission
    else
      match select_users st to_user_ids with
      | .error e => .error e
      | .ok users =>
        let users_with_group := users.filter (fun u => u ∈ group.users)
        if users_with_group ≠ [] then
          .error (.usersInGroupExists users_with_group)
        else
          .ok { st with groups := st.groups.map (fun g =>
            if g.id = group.id then { g with users := g.users ++ users }
            else g) }

end AuthService

/-! ## data_service: calculation/utils.py, calculation/schemas.py,
calculation/routers.py -/

namespace CalculationService

/-- `calculate_bmi_group` (`calculation/utils.py`), over an arbitrary
linear ordered field (idealizing Python floats; the function only compares
its argument against exactly representable constants). -/
def calculate_bmi_group {K : Type} [LinearOrderedField K] (bmi : K) : Int :=
  if bmi < 16 then 1
  else if 16 ≤ bmi ∧ bmi < 18.5 then 2
  else if 18.5 ≤ bmi ∧ bmi < 25 then 3
  else if 25 ≤ bmi ∧ bmi < 30 then 4
  else if 30 ≤ bmi ∧ bmi < 35 then 5
  else if 35 ≤ bmi ∧ bmi < 40 then 6
  else 7

/-- `chr(group + 64)` as used in `get_bmi_simple`
(`calculation/routers.py`). -/
def groupLetter (group : Int) : Char := Char.ofNat (group + 64).toNat

/-- `getattr(BMIDescription, c).value` (`calculation/schemas.py`): the
enum member named `c`; `none` models the `AttributeError` raised for any
other name. -/
def BMIDescription : Char → Option String
  | 'A' => some "Выраженный дефицит массы тела"
  | 'B' => some "Недостаточная (дефицит) масса тела"
  | 'C' => some "Норма"
  | 'D' => some "Избыточная масса тела (предожирение)"
  | 'E' => some "Ожирение первой степени"
  | 'F' => some "Ожирение второй степени"
  | 'G' => some "Ожирение третьей степени"
  | _ => none

/-- The payload of `get_bmi_simple`'s response dictionary. -/
structure BmiResult (K : Type) where
  bmi : K
  description : String

/-- `get_bmi_simple` (`calculation/routers.py`): a height above 100 is
interpreted as centimeters and divided by 100; the BMI is `m / h ** 2`.
`none` models the `ZeroDivisionError` when the normalized height is zero,
and the `AttributeError` when the group letter is not a `BMIDescription`
member (which never happens). -/
def get_bmi_simple {K : Type} [LinearOrderedField K] (m h : K)
    (description : Bool) : Option (BmiResult K) :=
  let h' := if h > 100 then h / 100 else h
  if h' = 0 then none
  else
    let bmi := m / h' ^ 2
    if description = true then
      match BMIDescription (groupLetter (calculate_bmi_group bmi)) with
      | some text => some ⟨bmi, text⟩
      | none => none
    else some ⟨bmi, ""⟩

end CalculationService

end FDB

namespace FDB.StorageService

/-- C1: `StorageFilePermission.has_user_access_to_file(u, f)` returns `True`
if and only if a users_files row `(u, f)` exists, or there is a group `g`
with a users_groups row `(u, g)` and a groups_files row `(g, f)`; in all
other cases it returns `False`. -/
theorem C1_has_user_access_iff (u : String) (f : Int) (db : StorageState) :
    has_user_access_to_file u f db = true ↔
      ((u, f) ∈ db.users_files ∨
        ∃ g : Int, (u, g) ∈ db.users_groups ∧ (g, f) ∈ db.groups_files) := by
  simp only [has_user_access_to_file, Bool.or_eq_true, List.any_eq_true,
    decide_eq_true_eq, List.mem_map, List.mem_filter]
  constructor
  · rintro (⟨r, hr, h1, h2⟩ | ⟨r, hr, h1, ⟨s, ⟨hs, hs1⟩, hs2⟩⟩)
    · exact Or.inl (by rwa [← h1, ← h2, Prod.mk.eta])
    · refine Or.inr ⟨r.1, ?_, ?_⟩
      · rw [← hs1, ← hs2]; rwa [Prod.mk.eta]
      · rw [← h1, Prod.mk.eta]; exact hr
  · rintro (h | ⟨g, hg, hgf⟩)
    · exact Or.inl ⟨(u, f), h, rfl, rfl⟩
    · exact Or.inr ⟨(g, f), hgf, rfl, ⟨(u, g), ⟨hg, rfl⟩, rfl⟩⟩

end FDB.StorageService

namespace FDB.DataService

lemma string_append_cancel_right {a b : String} (s : String)
    (h : a ++ s = b ++ s) : a = b := by
  have hd : a.data ++ s.data = b.data ++ s.data := congrArg String.data h
  exact congrArg String.mk (List.append_cancel_right hd)

lemma key_file_id_ne_data (a b : String) : a ++ "_file_id" ≠ b ++ "_data" := by
  intro h
  have hd : a.data ++ "_file_id".data = b.data ++ "_data".data :=
    congrArg String.data h
  have h2 := congrArg List.getLast? hd
  rw [List.getLast?_append_of_ne_nil, List.getLast?_append_of_ne_nil] at h2
  · exact absurd h2 (by decide)
  · decide
  · decide

lemma redis_get_set_same (st : RedisState) (k : String) (v : PickleBlob) :
    redis_get (redis_set st k v) k = some v := by
  simp [redis_get, redis_set, List.find?_cons_of_pos]

lemma redis_get_set_other (st : RedisState) (k k' : String) (v : PickleBlob)
    (h : k' ≠ k) : redis_get (redis_set st k' v) k = redis_get st k := by
  simp [redis_get, redis_set, List.find?_cons_of_neg, h]

lemma get_dataframe_set_data_same (st : RedisState) (u : String)
    (df : DataFrame) :
    get_dataframe (redis_set st (u ++ "_data") (pickle_dumps (.df df))) u =
      .ok (.df df) := by
  simp [get_dataframe, redis_get_set_same, pickle_loads, pickle_dumps]

lemma get_dataframe_skip_fid (st : RedisState) (a u : String)
    (v : PickleBlob) :
    get_dataframe (redis_set st (a ++ "_file_id") v) u = get_dataframe st u := by
  simp [get_dataframe, redis_get_set_other _ _ _ _ (key_file_id_ne_data a u)]

lemma get_dataframe_skip_other_data (st : RedisState) (a u : String)
    (v : PickleBlob) (h : a ≠ u) :
    get_dataframe (redis_set st (a ++ "_data") v) u = get_dataframe st u := by
  have hne : a ++ "_data" ≠ u ++ "_data" := fun hc =>
    h (string_append_cancel_right _ hc)
  simp [get_dataframe, redis_get_set_other _ _ _ _ hne]

lemma get_filet_id_set_fid_same (st : RedisState) (u : String) (n : Int) :
    get_filet_id (redis_set st (u ++ "_file_id") (pickle_dumps (.int n))) u =
      .ok (.int n) := by
  simp [get_filet_id, redis_get_set_same, pickle_loads, pickle_dumps]

lemma get_filet_id_skip_data (st : RedisState) (a u : String)
    (v : PickleBlob) :
    get_filet_id (redis_set st (a ++ "_data") v) u = get_filet_id st u := by
  simp [get_filet_id,
    redis_get_set_other _ _ _ _ (Ne.symm (key_file_id_ne_data u a))]

lemma get_filet_id_skip_other_fid (st : RedisState) (a u : String)
    (v : PickleBlob) (h : a ≠ u) :
    get_filet_id (redis_set st (a ++ "_file_id") v) u = get_filet_id st u := by
  have hne : a ++ "_file_id" ≠ u ++ "_file_id" := fun hc =>
    h (string_append_cancel_right _ hc)
  simp [get_filet_id, redis_get_set_other _ _ _ _ hne]

lemma get_dataframe_set_dataframe (st : RedisState) (u' u : String)
    (df : DataFrame) (fid : Option Int) :
    get_dataframe (set_dataframe st u' df fid) u =
      if u' = u then .ok (.df df) else get_dataframe st u := by
  by_cases h : u' = u
  · subst h
    cases fid with
    | none =>
      rw [if_pos rfl]
      exact get_dataframe_set_data_same st u' df
    | some n =>
      rw [if_pos rfl]
      show get_dataframe (redis_set _ (u' ++ "_file_id") _) u' = _
      rw [get_dataframe_skip_fid]
      exact get_dataframe_set_data_same st u' df
  · rw [if_neg h]
    cases fid with
    | none => exact get_dataframe_skip_other_data st u' u _ h
    | some n =>
      show get_dataframe (redis_set _ (u' ++ "_file_id") _) u = _
      rw [get_dataframe_skip_fid]
      exact get_dataframe_skip_other_data st u' u _ h

lemma get_dataframe_set_file_id (st : RedisState) (u' u : String) (fid : Int) :
    get_dataframe (set_file_id st u' fid) u = get_dataframe st u :=
  get_dataframe_skip_fid st u' u _

lemma get_filet_id_set_file_id (st : RedisState) (u' u : String) (fid : Int) :
    get_filet_id (set_file_id st u' fid) u =
      if u' = u then .ok (.int fid) else get_filet_id st u := by
  by_cases h : u' = u
  · subst h
    rw [if_pos rfl]
    exact get_filet_id_set_fid_same st u' fid
  · rw [if_neg h]
    exact get_filet_id_skip_other_fid st u' u _ h

lemma get_filet_id_set_dataframe (st : RedisState) (u' u : String)
    (df : DataFrame) (fid : Option Int) :
    get_filet_id (set_dataframe st u' df fid) u =
      match fid with
      | some n => if u' = u then .ok (.int n) else get_filet_id st u
      | none => get_filet_id st u := by
  cases fid with
  | none => exact get_filet_id_skip_data st u' u _
  | some n =>
    by_cases h : u' = u
    · subst h
      show get_filet_id (redis_set _ (u' ++ "_file_id") _) u' = _
      rw [get_filet_id_set_fid_same]
      simp
    · show get_filet_id (redis_set _ (u' ++ "_file_id") _) u = _
      rw [get_filet_id_skip_other_fid _ _ _ _ h, get_filet_id_skip_data]
      simp [h]

lemma get_dataframe_runOps (u : String) (ops : List RedisOp)
    (st : RedisState) :
    get_dataframe (runOps st ops) u =
      match lastDf u ops with
      | some d => .ok (.df d)
      | none => get_dataframe st u := by
  induction ops generalizing st with
  | nil => simp [runOps, lastDf]
  | cons op ops ih =>
    rw [runOps, ih]
    cases htail : lastDf u ops with
    | some d =>
      have hl : lastDf u (op :: ops) = some d := by
        rw [lastDf, htail]; rfl
      rw [hl]
    | none =>
      have hl : lastDf u (op :: ops) = opDf u op := by
        rw [lastDf, htail]; rfl
      rw [hl]
      cases op with
      | setFid u' fid => simp [opDf, applyOp, get_dataframe_set_file_id]
      | setDf u' df fid =>
        simp only [applyOp]
        rw [get_dataframe_set_dataframe]
        by_cases h : u' = u <;> simp [opDf, h]

lemma get_filet_id_runOps (u : String) (ops : List RedisOp)
    (st : RedisState) :
    get_filet_id (runOps st ops) u =
      match lastFid u ops with
      | some n => .ok (.int n)
      | none => get_filet_id st u := by
  induction ops generalizing st with
  | nil => simp [runOps, lastFid]
  | cons op ops ih =>
    rw [runOps, ih]
    cases htail : lastFid u ops with
    | some n =>
      have hl : lastFid u (op :: ops) = some n := by
        rw [lastFid, htail]; rfl
      rw [hl]
    | none =>
      have hl : lastFid u (op :: ops) = opFid u op := by
        rw [lastFid, htail]; rfl
      rw [hl]
      cases op with
      | setFid u' fid =>
        simp only [applyOp]
        rw [get_filet_id_set_file_id]
        by_cases h : u' = u <;> simp [opFid, h]
      | setDf u' df fid =>
        simp only [applyOp]
        rw [get_filet_id_set_dataframe]
        cases fid with
        | none => simp [opFid]
        | some n => by_cases h : u' = u <;> simp [opFid, h]

lemma lastDf_eq_none_iff (u : String) (ops : List RedisOp) :
    lastDf u ops = none ↔ ∀ df fid, RedisOp.setDf u df fid ∉ ops := by
  induction ops with
  | nil => simp [lastDf]
  | cons op ops ih =>
    have hstep : lastDf u (op :: ops) = none ↔
        lastDf u ops = none ∧ opDf u op = none := by
      rw [lastDf]
      cases lastDf u ops <;> simp [Option.orElse]
    rw [hstep, ih]
    cases op with
    | setFid u' fid => simp [opDf, List.mem_cons]
    | setDf u' df fid =>
      by_cases h : u' = u
      · subst h
        simp only [opDf, if_pos rfl]
        constructor
        · rintro ⟨-, hc⟩
          exact absurd hc (by simp)
        · intro hall
          exact (hall df fid (List.mem_cons_self _ _)).elim
      · constructor
        · rintro ⟨hall, -⟩ df' fid' hmem
          rcases List.mem_cons.mp hmem with hc | hc
          · injection hc with h1 h2 h3
            exact h h1.symm
          · exact hall df' fid' hc
        · intro hall
          refine ⟨fun df' fid' hmem =>
            hall df' fid' (List.mem_cons_of_mem _ hmem), ?_⟩
          simp [opDf, h]

lemma lastFid_eq_none_iff (u : String) (ops : List RedisOp) :
    lastFid u ops = none ↔
      (∀ fid, RedisOp.setFid u fid ∉ ops) ∧
        ∀ df fid, RedisOp.setDf u df (some fid) ∉ ops := by
  induction ops with
  | nil => simp [lastFid]
  | cons op ops ih =>
    have hstep : lastFid u (op :: ops) = none ↔
        lastFid u ops = none ∧ opFid u op = none := by
      rw [lastFid]
      cases lastFid u ops <;> simp [Option.orElse]
    rw [hstep, ih]
    cases op with
    | setFid u' fid =>
      by_cases h : u' = u
      · subst h
        simp only [opFid, if_pos rfl]
        constructor
        · rintro ⟨-, hc⟩
          exact absurd hc (by simp)
        · rintro ⟨h1, -⟩
          exact (h1 fid (List.mem_cons_self _ _)).elim
      · simp only [opFid, if_neg h]
        constructor
        · rintro ⟨⟨h1, h2⟩, -⟩
          refine ⟨fun fid' hmem => ?_, fun df' fid' hmem => ?_⟩
          · rcases List.mem_cons.mp hmem with hc | hc
            · injection hc with ha hb
              exact h ha.symm
            · exact h1 fid' hc
          · rcases List.mem_cons.mp hmem with hc | hc
            · exact RedisOp.noConfusion hc
            · exact h2 df' fid' hc
        · rintro ⟨h1, h2⟩
          exact ⟨⟨fun fid' hmem => h1 fid' (List.mem_cons_of_mem _ hmem),
            fun df' fid' hmem => h2 df' fid' (List.mem_cons_of_mem _ hmem)⟩,
            trivial⟩
    | setDf u' df fid0 =>
      cases fid0 with
      | none =>
        constructor
        · rintro ⟨⟨h1, h2⟩, -⟩
          refine ⟨fun fid' hmem => ?_, fun df' fid' hmem => ?_⟩
          · rcases List.mem_cons.mp hmem with hc | hc
            · exact RedisOp.noConfusion hc
            · exact h1 fid' hc
          · rcases List.mem_cons.mp hmem with hc | hc
            · injection hc with ha hb hcopt
              exact Option.noConfusion hcopt
            · exact h2 df' fid' hc
        · rintro ⟨h1, h2⟩
          exact ⟨⟨fun fid' hmem => h1 fid' (List.mem_cons_of_mem _ hmem),
            fun df' fid' hmem => h2 df' fid' (List.mem_cons_of_mem _ hmem)⟩,
            rfl⟩
      | some n =>
        by_cases h : u' = u
        · subst h
          simp only [opFid, if_pos rfl]
          constructor
          · rintro ⟨-, hc⟩
            exact absurd hc (by simp)
          · rintro ⟨-, h2⟩
            exact (h2 df n (List.mem_cons_self _ _)).elim
        · simp only [opFid, if_neg h]
          constructor
          · rintro ⟨⟨h1, h2⟩, -⟩
            refine ⟨fun fid' hmem => ?_, fun df' fid' hmem => ?_⟩
            · rcases List.mem_cons.mp hmem with hc | hc
              · exact RedisOp.noConfusion hc
              · exact h1 fid' hc
            · rcases List.mem_cons.mp hmem with hc | hc
              · injection hc with ha hb hcopt
                exact h ha.symm
              · exact h2 df' fid' hc
          · rintro ⟨h1, h2⟩
            exact ⟨⟨fun fid' hmem => h1 fid' (List.mem_cons_of_mem _ hmem),
              fun df' fid' hmem => h2 df' fid' (List.mem_cons_of_mem _ hmem)⟩,
              trivial⟩

/-- C2 is false as stated for `calculate`: the endpoint is not a pure
pass-through of the expression evaluator.  First conjunct: on a dataframe
with a column `"a"`, a request with `column_name = "a"` and `rewrite =
false` raises `ColumnsExistsException` even though the evaluator succeeds
(an additional failure condition).  Second conjunct: with the default
`convert_bool = true`, a boolean evaluation result is converted to an
integer column, so the endpoint does not return the evaluator's column
unchanged (the evaluator produced `[Cell.bool true]`, the endpoint returns
`[Cell.int 1]`, and those differ, third conjunct). -/
theorem C2_counterexample :
    calculate ⟨"a > 0", false, "a", false, true⟩ ⟨[("a", [Cell.int 1])]⟩
        (.ok (.series ⟨false, [Cell.int 2]⟩)) =
      .error (.columnsExists ["a"]) ∧
    calculate ⟨"a > 0", false, "b", false, true⟩ ⟨[("a", [Cell.int 1])]⟩
        (.ok (.series ⟨true, [Cell.bool true]⟩)) =
      .ok ([("b", [Cell.int 1])], ⟨[("a", [Cell.int 1])]⟩) ∧
    (Cell.int 1 : Cell) ≠ Cell.bool true :=
  ⟨rfl, rfl, by decide⟩

/-- C2 (amended): provided the requested column name does not already
exist (or `rewrite` is set), whenever the evaluator succeeds with a Series
result, `calculate` returns exactly that column keyed by the requested
column name, except that a boolean-dtype result is cast to integers when
`convert_bool` is set (first conjunct); a DataFrame-shaped evaluation
result is rejected with `EvalException`, status 400 (second conjunct);
`filter_data` returns exactly the rows selected by the expression with no
additional transformation or failure condition (third conjunct). -/
theorem C2_calculate_filter_pass_through :
    (∀ (params : ParamsForCalculate) (df : DataFrame) (s : Series),
      ¬(params.column_name ∈ df.columns ∧ params.rewrite = false) →
      ∃ df', calculate params df (.ok (.series s)) =
        .ok ([(params.column_name,
          (if params.convert_bool = true ∧ s.isBoolDtype = true then
            s.astypeInt else s).values)], df')) ∧
    (∀ (params : ParamsForCalculate) (df d : DataFrame),
      ¬(params.column_name ∈ df.columns ∧ params.rewrite = false) →
      calculate params df (.ok (.dataframe d)) = .error .evalError ∧
      DataException.status_code .evalError = 400) ∧
    (∀ (params : ParamsForExpr) (df filtered_df : DataFrame),
      ∃ df', filter_data params df (.ok filtered_df) =
        .ok (filtered_df.to_dict, df')) := by
  refine ⟨?_, ?_, ?_⟩
  · intro params df s hcol
    exact ⟨_, by rw [calculate, if_neg hcol]⟩
  · intro params df d hcol
    exact ⟨by rw [calculate, if_neg hcol], rfl⟩
  · intro params df fdf
    exact ⟨_, rfl⟩

/-- Witness for the amended C2 theorem at concrete inputs, one per
conjunct. -/
theorem C2_calculate_filter_pass_through_witness :
    (∃ df', calculate ⟨"a + 1", false, "b", false, true⟩
        ⟨[("a", [Cell.int 1])]⟩ (.ok (.series ⟨false, [Cell.int 2]⟩)) =
      .ok ([("b", [Cell.int 2])], df')) ∧
    calculate ⟨"a + 1", false, "b", false, true⟩ ⟨[("a", [Cell.int 1])]⟩
        (.ok (.dataframe ⟨[("c", [Cell.int 3])]⟩)) =
      .error .evalError ∧
    (∃ df', filter_data ⟨"a > 0", false⟩ ⟨[("a", [Cell.int 1])]⟩
        (.ok ⟨[("a", [Cell.int 1])]⟩) =
      .ok ([("a", [Cell.int 1])], df')) := by
  refine ⟨?_, ?_, ?_⟩
  · have h := C2_calculate_filter_pass_through.1
      ⟨"a + 1", false, "b", false, true⟩ ⟨[("a", [Cell.int 1])]⟩
      ⟨false, [Cell.int 2]⟩ (by decide)
    simpa using h
  · exact (C2_calculate_filter_pass_through.2.1
      ⟨"a + 1", false, "b", false, true⟩ ⟨[("a", [Cell.int 1])]⟩
      ⟨[("c", [Cell.int 3])]⟩ (by decide)).1
  · have h := C2_calculate_filter_pass_through.2.2
      ⟨"a > 0", false⟩ ⟨[("a", [Cell.int 1])]⟩ ⟨[("a", [Cell.int 1])]⟩
    simpa [DataFrame.to_dict] using h

/-- C3: when the expression evaluator raises inside `calculate` (with the
pre-evaluation column-name check passing) or inside `filter_data`, the
endpoint raises the HTTP exception determined by the library exception's
type: an undefined-variable error becomes `ColumnsNotFoundException` with
status 404, a `ValueError` or `SyntaxError` becomes `EvalException` with
status 400, and a `TypeError` becomes `EvalTypeException` with status
400. -/
theorem C3_exception_translation (params : ParamsForCalculate)
    (df : DataFrame) (fp : ParamsForExpr) (fdf : DataFrame)
    (hcol : ¬(params.column_name ∈ df.columns ∧ params.rewrite = false)) :
    (∀ n, calculate params df (.error (.undefinedVariable n)) =
        .error (.columnsNotFound [n]) ∧
      filter_data fp fdf (.error (.undefinedVariable n)) =
        .error (.columnsNotFound [n]) ∧
      DataException.status_code (.columnsNotFound [n]) = 404) ∧
    (calculate params df (.error .valueError) = .error .evalError ∧
      calculate params df (.error .syntaxError) = .error .evalError ∧
      filter_data fp fdf (.error .valueError) = .error .evalError ∧
      filter_data fp fdf (.error .syntaxError) = .error .evalError ∧
      DataException.status_code .evalError = 400) ∧
    (calculate params df (.error .typeError) = .error .evalTypeError ∧
      filter_data fp fdf (.error .typeError) = .error .evalTypeError ∧
      DataException.status_code .evalTypeError = 400) := by
  refine ⟨fun n => ⟨?_, rfl, rfl⟩, ⟨?_, ?_, rfl, rfl, rfl⟩, ?_, rfl, rfl⟩ <;>
    rw [calculate, if_neg hcol]

/-- Witness for the C3 theorem at concrete inputs. -/
theorem C3_exception_translation_witness :
    calculate ⟨"x", false, "b", false, true⟩ ⟨[("a", [Cell.int 1])]⟩
        (.error .valueError) = .error .evalError := by
  have h := C3_exception_translation ⟨"x", false, "b", false, true⟩
    ⟨[("a", [Cell.int 1])]⟩ ⟨"x", false⟩ ⟨[]⟩ (by decide)
  exact h.2.1.1

/-- C4: the per-user cache is a pickled-blob round trip:
`get_dataframe(u)` right after `set_dataframe(u, df)` returns the loaded
pickle of `df` (deserialization inverts serialization), and the blob is
stored under the key `u ++ "_data"`. -/
theorem C4_cache_roundtrip (st : RedisState) (u : String) (df : DataFrame)
    (fid : Option Int) :
    get_dataframe (set_dataframe st u df fid) u = .ok (.df df) ∧
    redis_get (set_dataframe st u df fid) (u ++ "_data") =
      some (pickle_dumps (.df df)) ∧
    pickle_loads (pickle_dumps (.df df)) = .df df := by
  refine ⟨?_, ?_, rfl⟩
  · rw [get_dataframe_set_dataframe, if_pos rfl]
  · cases fid with
    | none => exact redis_get_set_same st (u ++ "_data") _
    | some n =>
      show redis_get (redis_set _ (u ++ "_file_id") _) (u ++ "_data") = _
      rw [redis_get_set_other _ _ _ _ (key_file_id_ne_data u u)]
      exact redis_get_set_same st (u ++ "_data") _

/-- C5: over any trace of set operations starting from the empty store,
`get_dataframe(u)` raises `DataNotFound` (status 404) exactly when no
dataframe was ever stored for `u`, and otherwise returns the last
dataframe stored for `u`; likewise `get_filet_id(u)` raises `DataNotFound`
exactly when no file id was ever stored for `u` (by `set_file_id` or by
`set_dataframe` with a file id), and otherwise returns the last one. -/
theorem C5_dataNotFound_iff (u : String) (ops : List RedisOp) :
    (get_dataframe (runOps [] ops) u =
      match lastDf u ops with
      | none => .error .dataNotFound
      | some d => .ok (.df d)) ∧
    (get_filet_id (runOps [] ops) u =
      match lastFid u ops with
      | none => .error .dataNotFound
      | some n => .ok (.int n)) ∧
    (lastDf u ops = none ↔ ∀ df fid, RedisOp.setDf u df fid ∉ ops) ∧
    (lastFid u ops = none ↔
      (∀ fid, RedisOp.setFid u fid ∉ ops) ∧
        ∀ df fid, RedisOp.setDf u df (some fid) ∉ ops) ∧
    DataException.status_code .dataNotFound = 404 := by
  refine ⟨?_, ?_, lastDf_eq_none_iff u ops, lastFid_eq_none_iff u ops, rfl⟩
  · rw [get_dataframe_runOps]
    cases lastDf u ops <;> rfl
  · rw [get_filet_id_runOps]
    cases lastFid u ops <;> rfl

end FDB.DataService

namespace FDB.AuthService

lemma filter_mem_length_lt (tbl ids : List String) (hnd : tbl.Nodup)
    (t : String) (ht : t ∈ ids) (hmiss : t ∉ tbl) :
    (tbl.filter (fun u => u ∈ ids)).length < ids.length := by
  have hlnd : (tbl.filter (fun u => u ∈ ids)).Nodup := hnd.filter _
  have hsub : (tbl.filter (fun u => u ∈ ids)).toFinset ⊆
      ids.toFinset.erase t := by
    intro x hx
    rw [List.mem_toFinset] at hx
    rw [Finset.mem_erase]
    have hx' := List.mem_filter.mp hx
    refine ⟨?_, ?_⟩
    · rintro rfl
      exact hmiss hx'.1
    · rw [List.mem_toFinset]
      exact of_decide_eq_true hx'.2
  calc (tbl.filter (fun u => u ∈ ids)).length
      = (tbl.filter (fun u => u ∈ ids)).toFinset.card :=
        (List.toFinset_card_of_nodup hlnd).symm
    _ ≤ (ids.toFinset.erase t).card := Finset.card_le_card hsub
    _ = ids.toFinset.card - 1 :=
        Finset.card_erase_of_mem (List.mem_toFinset.mpr ht)
    _ < ids.toFinset.card :=
        Nat.sub_lt (Finset.card_pos.mpr ⟨t, List.mem_toFinset.mpr ht⟩)
          Nat.one_pos
    _ ≤ ids.length := List.toFinset_card_le ids

lemma filter_mem_length_eq (tbl ids : List String) (hnd : tbl.Nodup)
    (hids : ids.Nodup) (hall : ∀ t ∈ ids, t ∈ tbl) :
    (tbl.filter (fun u => u ∈ ids)).length = ids.length := by
  have h1 : (tbl.filter (fun u => u ∈ ids)).Nodup := hnd.filter _
  have h2 : (tbl.filter (fun u => u ∈ ids)).toFinset = ids.toFinset := by
    ext x
    simp only [List.mem_toFinset, List.mem_filter, decide_eq_true_eq]
    exact ⟨fun hx => hx.2, fun hx => ⟨hall x hx, hx⟩⟩
  calc (tbl.filter (fun u => u ∈ ids)).length
      = (tbl.filter (fun u => u ∈ ids)).toFinset.card :=
        (List.toFinset_card_of_nodup h1).symm
    _ = ids.toFinset.card := by rw [h2]
    _ = ids.length := List.toFinset_card_of_nodup hids

/-- C6 is false as stated: in a state with users "u0" and "u1" and a
group 1 whose members are both, the requester "u0" is a member and the
target list ["u1", "u1"] contains only ids of existing users, one of which
("u1") is already a member, so the claim prescribes
`UsersInGroupExistsException`; but the length check in `select_users`
fires on the duplicated id and the call raises `UsersNotFoundException`
with an empty id list instead. -/
theorem C6_counterexample :
    add_users_to_group "u0" ["u1", "u1"] 1
        ⟨["u0", "u1"], [⟨1, "u0", "g", ["u0", "u1"]⟩]⟩ =
      .error (.usersNotFound []) ∧
    GroupException.usersNotFound [] ≠ .usersInGroupExists ["u1"] := by
  constructor
  · rfl
  · decide

/-- C6 (amended): with the target group found and the users table
duplicate-free, `add_users_to_group` raises `GroupPermissionException`
when the requester is not a member of the group; raises
`UsersNotFoundException` (with a nonempty missing-ids list) when the
requester is a member and at least one target id matches no user; and,
for a duplicate-free target list all of whose ids match existing users, it
raises `UsersInGroupExistsException` (with a nonempty ids list) when at
least one target is already a member, and otherwise succeeds, appending
exactly the target users to the group's membership.  In every error case
no commit happens, so the membership is unchanged.  (The duplicate-free
proviso is forced by the counterexample: a duplicated id of an existing
user makes the length check in `select_users` raise
`UsersNotFoundException` with an empty id list.) -/
theorem C6_add_users_to_group (user_id : String) (to_user_ids : List String)
    (group_id : Int) (st : AuthState) (group : Group)
    (hg : select_group group_id st = .ok group)
    (hnd : st.users.Nodup) :
    (user_id ∉ group.users →
      add_users_to_group user_id to_user_ids group_id st =
        .error .groupPermission) ∧
    (user_id ∈ group.users → (∃ t ∈ to_user_ids, t ∉ st.users) →
      ∃ missing, missing ≠ [] ∧
        add_users_to_group user_id to_user_ids group_id st =
          .error (.usersNotFound missing)) ∧
    (user_id ∈ group.users → to_user_ids.Nodup →
      (∀ t ∈ to_user_ids, t ∈ st.users) →
      (∃ t ∈ to_user_ids, t ∈ group.users) →
      ∃ present, present ≠ [] ∧
        add_users_to_group user_id to_user_ids group_id st =
          .error (.usersInGroupExists present)) ∧
    (user_id ∈ group.users → to_user_ids.Nodup →
      (∀ t ∈ to_user_ids, t ∈ st.users) →
      (∀ t ∈ to_user_ids, t ∉ group.users) →
      ∃ selected, (∀ x, x ∈ selected ↔ x ∈ to_user_ids) ∧
        add_users_to_group user_id to_user_ids group_id st =
          .ok { st with groups := st.groups.map (fun g =>
            if g.id = group.id then { g with users := g.users ++ selected }
            else g) }) := by
  have hbody : add_users_to_group user_id to_user_ids group_id st =
      (if user_id ∉ group.users then .error .groupPermission
       else
        match select_users st to_user_ids with
        | .error e => .error e
        | .ok users =>
          let users_with_group := users.filter (fun u => u ∈ group.users)
          if users_with_group ≠ [] then
            .error (.usersInGroupExists users_with_group)
          else
            .ok { st with groups := st.groups.map (fun g =>
              if g.id = group.id then { g with users := g.users ++ users }
              else g) }) := by
    rw [add_users_to_group, hg]
  refine ⟨?_, ?_, ?_, ?_⟩
  · intro h1
    rw [hbody, if_pos h1]
  · rintro hmem ⟨t, ht, hmiss⟩
    have hlt := filter_mem_length_lt st.users to_user_ids hnd t ht hmiss
    have hsel : select_users st to_user_ids =
        .error (.usersNotFound (to_user_ids.filter
          (fun x => x ∉ st.users.filter (fun u => u ∈ to_user_ids)))) := by
      show (if to_user_ids.length ≠
          (st.users.filter (fun u => u ∈ to_user_ids)).length then _
        else _) = _
      rw [if_pos (Ne.symm (Nat.ne_of_lt hlt))]
    refine ⟨to_user_ids.filter
      (fun x => x ∉ st.users.filter (fun u => u ∈ to_user_ids)), ?_, ?_⟩
    · apply List.ne_nil_of_mem (a := t)
      rw [List.mem_filter]
      refine ⟨ht, decide_eq_true ?_⟩
      intro hc
      exact hmiss (List.mem_filter.mp hc).1
    · rw [hbody, if_neg (not_not_intro hmem), hsel]
  · rintro hmem hnodup hall ⟨t, ht, htg⟩
    have hlen := filter_mem_length_eq st.users to_user_ids hnd hnodup hall
    have hsel : select_users st to_user_ids =
        .ok (st.users.filter (fun u => u ∈ to_user_ids)) := by
      show (if to_user_ids.length ≠
          (st.users.filter (fun u => u ∈ to_user_ids)).length then _
        else _) = _
      rw [if_neg (not_not_intro hlen.symm)]
    have htin : t ∈ (st.users.filter (fun u => u ∈ to_user_ids)).filter
        (fun u => u ∈ group.users) := by
      rw [List.mem_filter]
      refine ⟨?_, decide_eq_true htg⟩
      rw [List.mem_filter]
      exact ⟨hall t ht, decide_eq_true ht⟩
    refine ⟨_, List.ne_nil_of_mem htin, ?_⟩
    rw [hbody, if_neg (not_not_intro hmem), hsel]
    show (if _ ≠ ([] : List String) then _ else _) = _
    rw [if_pos (List.ne_nil_of_mem htin)]
  · intro hmem hnodup hall hnone
    have hlen := filter_mem_length_eq st.users to_user_ids hnd hnodup hall
    have hsel : select_users st to_user_ids =
        .ok (st.users.filter (fun u => u ∈ to_user_ids)) := by
      show (if to_user_ids.length ≠
          (st.users.filter (fun u => u ∈ to_user_ids)).length then _
        else _) = _
      rw [if_neg (not_not_intro hlen.symm)]
    have hempty : (st.users.filter (fun u => u ∈ to_user_ids)).filter
        (fun u => u ∈ group.users) = [] := by
      rw [List.filter_eq_nil_iff]
      intro a ha
      have ha' := List.mem_filter.mp ha
      have hain : a ∈ to_user_ids := of_decide_eq_true ha'.2
      simpa using hnone a hain
    refine ⟨st.users.filter (fun u => u ∈ to_user_ids), ?_, ?_⟩
    · intro x
      rw [List.mem_filter]
      constructor
      · rintro ⟨-, hx⟩
        exact of_decide_eq_true hx
      · intro hx
        exact ⟨hall x hx, decide_eq_true hx⟩
    · rw [hbody, if_neg (not_not_intro hmem), hsel]
      show (if _ ≠ ([] : List String) then _ else _) = _
      rw [if_neg (not_not_intro hempty)]

/-- Witness for the amended C6 theorem: in a state with users "u0", "u1"
and group 1 with sole member "u0", requester "u0" adds ["u1"]; the call
succeeds and appends exactly "u1". -/
theorem C6_add_users_to_group_witness :
    ∃ selected, (∀ x, x ∈ selected ↔ x ∈ (["u1"] : List String)) ∧
      add_users_to_group "u0" ["u1"] 1
          ⟨["u0", "u1"], [⟨1, "u0", "g", ["u0"]⟩]⟩ =
        .ok ⟨["u0", "u1"], [⟨1, "u0", "g", ["u0"] ++ selected⟩]⟩ := by
  obtain ⟨sel, hsel, heq⟩ :=
    (C6_add_users_to_group "u0" ["u1"] 1
        ⟨["u0", "u1"], [⟨1, "u0", "g", ["u0"]⟩]⟩ ⟨1, "u0", "g", ["u0"]⟩
        rfl (by decide)).2.2.2
      (by decide) (by decide) (by decide) (by decide)
  refine ⟨sel, hsel, ?_⟩
  rw [heq]
  rfl

end FDB.AuthService

namespace FDB.StorageService

lemma select_user_ok_mem {uid u : String} {st : StorageState}
    (h : select_user uid st = .ok u) : uid ∈ st.users := by
  by_cases hmem : uid ∈ st.users
  · exact hmem
  · rw [select_user, if_neg hmem] at h
    exact absurd h (by simp)

lemma select_file_ok_mem {fid : Int} {f : StorageFile} {st : StorageState}
    (h : select_file fid st = .ok f) : f ∈ st.files ∧ f.id = fid := by
  rw [select_file] at h
  cases hf : st.files.find? (fun x => x.id = fid) with
  | none => rw [hf] at h; exact absurd h (by simp)
  | some g =>
    rw [hf] at h
    injection h with h'
    subst h'
    have hp := List.find?_some hf
    exact ⟨List.mem_of_find?_eq_some hf, of_decide_eq_true hp⟩

lemma select_group_ok_mem {gid : Int} {g : Group} {st : StorageState}
    (h : select_group gid st = .ok g) : g ∈ st.groups ∧ g.id = gid := by
  rw [select_group] at h
  cases hg : st.groups.find? (fun x => x.id = gid) with
  | none => rw [hg] at h; exact absurd h (by simp)
  | some g0 =>
    rw [hg] at h
    injection h with h'
    subst h'
    have hp := List.find?_some hg
    exact ⟨List.mem_of_find?_eq_some hg, of_decide_eq_true hp⟩

lemma select_users_ok_eq {st : StorageState} {ids users : List String}
    (h : select_users st ids = .ok users) :
    users = st.users.filter (fun u => u ∈ ids) := by
  simp only [select_users] at h
  split at h
  · exact absurd h (by simp)
  · injection h with h'
    exact h'.symm

/-- C7: only a file's creator can share it.  With the file found, each of
`add_file_to_user`, `add_file_to_users` and `add_file_for_group` raises
`FilePermissionException` whenever the requesting user differs from the
file's creator and leaves the association state unchanged; with the
creator check passed and the group found, `add_file_for_group` raises
`GroupPermissionException` when the requester is not a member of the
group, again leaving the state unchanged. -/
theorem C7_creator_only_sharing (st : StorageState)
    (user_id to_user_id : String) (to_user_ids : List String)
    (group_id file_id : Int) (f : StorageFile)
    (hf : select_file file_id st = .ok f) :
    (user_id ≠ f.creator_id →
      add_file_to_user user_id to_user_id file_id st =
        .error .filePermission ∧
      add_file_to_users user_id to_user_ids file_id st =
        .error .filePermission ∧
      add_file_for_group user_id group_id file_id st =
        .error .filePermission ∧
      stateAfter (add_file_to_user user_id to_user_id file_id st) st = st ∧
      stateAfter (add_file_to_users user_id to_user_ids file_id st) st = st ∧
      stateAfter (add_file_for_group user_id group_id file_id st) st = st) ∧
    (∀ g, user_id = f.creator_id → select_group group_id st = .ok g →
      user_id ∉ st.groupUsers g.id →
      add_file_for_group user_id group_id file_id st =
        .error .groupPermission ∧
      stateAfter (add_file_for_group user_id group_id file_id st) st = st) := by
  constructor
  · intro hne
    have h1 : add_file_to_user user_id to_user_id file_id st =
        .error .filePermission := by
      simp only [add_file_to_user, hf]
      rw [if_pos hne]
    have h2 : add_file_to_users user_id to_user_ids file_id st =
        .error .filePermission := by
      simp only [add_file_to_users, hf]
      rw [if_pos hne]
    have h3 : add_file_for_group user_id group_id file_id st =
        .error .filePermission := by
      simp only [add_file_for_group, hf]
      rw [if_pos hne]
    exact ⟨h1, h2, h3, by rw [h1]; rfl, by rw [h2]; rfl, by rw [h3]; rfl⟩
  · intro g hcr hg hnotmem
    have h4 : add_file_for_group user_id group_id file_id st =
        .error .groupPermission := by
      simp only [add_file_for_group, hf]
      rw [if_neg (not_not_intro hcr)]
      simp only [hg]
      rw [if_pos hnotmem]
    exact ⟨h4, by rw [h4]; rfl⟩

/-- Witness for the C7 theorem: requester "u1" is not the creator "u0" of
file 1, so sharing it is refused. -/
theorem C7_creator_only_sharing_witness :
    add_file_to_user "u1" "u0" 1
        ⟨["u0", "u1"], [⟨1, "u0", "f.csv", "p", 10, 1, 1, none⟩],
          [⟨5, "u9", "g"⟩], [], [], [("u9", 5)]⟩ =
      .error .filePermission := by
  have h := (C7_creator_only_sharing
      ⟨["u0", "u1"], [⟨1, "u0", "f.csv", "p", 10, 1, 1, none⟩],
        [⟨5, "u9", "g"⟩], [], [], [("u9", 5)]⟩
      "u1" "u0" [] 5 1 ⟨1, "u0", "f.csv", "p", 10, 1, 1, none⟩ rfl).1
    (by decide)
  exact h.1

/-- C8: every storage-repository operation (`create_user_file`,
`add_file_to_user`, `add_file_to_users`, `remove_file`,
`remove_user_from_file`, `add_file_for_group`, `remove_file_from_group`)
preserves referential integrity of the association state: starting from a
state satisfying it, the state each operation leaves behind (unchanged on
an exception) again has every `users_files` row referencing an existing
user and an existing file, and every `groups_files` row referencing an
existing group and an existing file. -/
theorem C8_referential_integrity (st : StorageState) (h : refIntegrity st) :
    (∀ (filename path : String) (size : Int) (user_id : String)
        (version : Int) (based_on_id : Option Int),
      refIntegrity (stateAfterCreate
        (create_user_file filename path size user_id version based_on_id st)
        st)) ∧
    (∀ (user_id to_user_id : String) (file_id : Int),
      refIntegrity
        (stateAfter (add_file_to_user user_id to_user_id file_id st) st)) ∧
    (∀ (user_id : String) (to_user_ids : List String) (file_id : Int),
      refIntegrity
        (stateAfter (add_file_to_users user_id to_user_ids file_id st) st)) ∧
    (∀ sf : StorageFile,
      refIntegrity (stateAfter (remove_file sf st) st)) ∧
    (∀ (sf : StorageFile) (user_id : String),
      refIntegrity
        (stateAfter (remove_user_from_file sf user_id st) st)) ∧
    (∀ (user_id : String) (group_id file_id : Int),
      refIntegrity
        (stateAfter (add_file_for_group user_id group_id file_id st) st)) ∧
    (∀ (g : Group) (file_id : Int),
      refIntegrity
        (stateAfter (remove_file_from_group g file_id st) st)) := by
  refine ⟨?_, ?_, ?_, ?_, ?_, ?_, ?_⟩
  · -- create_user_file
    intro filename path size user_id version based_on_id
    cases hty : get_filetype_id filename with
    | none =>
      simp only [stateAfterCreate, create_user_file, hty]
      exact h
    | some tid =>
      cases hu : select_user user_id st with
      | error e =>
        simp only [stateAfterCreate, create_user_file, hty, hu]
        exact h
      | ok u =>
        simp only [stateAfterCreate, create_user_file, hty, hu]
        constructor
        · intro r hr
          rcases List.mem_append.mp hr with hr | hr
          · obtain ⟨h1, f0, hf0, hid⟩ := h.1 r hr
            exact ⟨h1, f0, List.mem_append_left _ hf0, hid⟩
          · have hr' := List.mem_singleton.mp hr
            subst hr'
            refine ⟨select_user_ok_mem hu, ?_⟩
            exact ⟨_, List.mem_append_right _ (List.mem_singleton.mpr rfl), rfl⟩
        · intro r hr
          obtain ⟨⟨g0, hg0, hgid⟩, f0, hf0, hid⟩ := h.2 r hr
          exact ⟨⟨g0, hg0, hgid⟩, f0, List.mem_append_left _ hf0, hid⟩
  · -- add_file_to_user
    intro user_id to_user_id file_id
    cases hfq : select_file file_id st with
    | error e =>
      simp only [stateAfter, add_file_to_user, hfq]
      exact h
    | ok f =>
      simp only [add_file_to_user, hfq]
      by_cases hcr : user_id ≠ f.creator_id
      · rw [if_pos hcr]
        exact h
      · rw [if_neg hcr]
        cases hu : select_user to_user_id st with
        | error e => exact h
        | ok u =>
          by_cases hin : file_id ∈ st.userFiles to_user_id
          · rw [if_pos hin]
            exact h
          · rw [if_neg hin]
            constructor
            · intro r hr
              rcases List.mem_append.mp hr with hr | hr
              · obtain ⟨h1, f0, hf0, hid⟩ := h.1 r hr
                exact ⟨h1, f0, hf0, hid⟩
              · have hr' := List.mem_singleton.mp hr
                subst hr'
                obtain ⟨hfm, hfid⟩ := select_file_ok_mem hfq
                exact ⟨select_user_ok_mem hu, f, hfm, hfid⟩
            · intro r hr
              exact h.2 r hr
  · -- add_file_to_users
    intro user_id to_user_ids file_id
    cases hfq : select_file file_id st with
    | error e =>
      simp only [stateAfter, add_file_to_users, hfq]
      exact h
    | ok f =>
      simp only [add_file_to_users, hfq]
      by_cases hcr : user_id ≠ f.creator_id
      · rw [if_pos hcr]
        exact h
      · rw [if_neg hcr]
        cases hsel : select_users st to_user_ids with
        | error e => exact h
        | ok users =>
          simp only []
          by_cases hw : users.filter
              (fun u => u ∈ st.fileUsers file_id) ≠ []
          · rw [if_pos hw]
            exact h
          · rw [if_neg hw]
            constructor
            · intro r hr
              rcases List.mem_append.mp hr with hr | hr
              · obtain ⟨h1, f0, hf0, hid⟩ := h.1 r hr
                exact ⟨h1, f0, hf0, hid⟩
              · obtain ⟨u, hu_mem, hru⟩ := List.mem_map.mp hr
                subst hru
                have husers := select_users_ok_eq hsel
                subst husers
                have hu_tbl := (List.mem_filter.mp hu_mem).1
                obtain ⟨hfm, hfid⟩ := select_file_ok_mem hfq
                exact ⟨hu_tbl, f, hfm, hfid⟩
            · intro r hr
              exact h.2 r hr
  · -- remove_file
    intro sf
    simp only [stateAfter, remove_file]
    constructor
    · intro r hr
      have hr' := List.mem_filter.mp hr
      obtain ⟨h1, f0, hf0, hid⟩ := h.1 r hr'.1
      refine ⟨h1, ?_⟩
      have hne : (f0.id ≠ sf.id) := by
        have := of_decide_eq_true hr'.2
        rw [hid]
        exact this
      refine ⟨(if f0.based_on_id = some sf.id then
        { f0 with based_on_id := none } else f0), ?_, ?_⟩
      · apply List.mem_map_of_mem
        exact List.mem_filter.mpr ⟨hf0, decide_eq_true hne⟩
      · show (if f0.based_on_id = some sf.id then
            { f0 with based_on_id := none } else f0).id = r.2
        split
        · exact hid
        · exact hid
    · intro r hr
      have hr' := List.mem_filter.mp hr
      obtain ⟨⟨g0, hg0, hgid⟩, f0, hf0, hid⟩ := h.2 r hr'.1
      refine ⟨⟨g0, hg0, hgid⟩, ?_⟩
      have hne : (f0.id ≠ sf.id) := by
        have := of_decide_eq_true hr'.2
        rw [hid]
        exact this
      refine ⟨(if f0.based_on_id = some sf.id then
        { f0 with based_on_id := none } else f0), ?_, ?_⟩
      · apply List.mem_map_of_mem
        exact List.mem_filter.mpr ⟨hf0, decide_eq_true hne⟩
      · show (if f0.based_on_id = some sf.id then
            { f0 with based_on_id := none } else f0).id = r.2
        split
        · exact hid
        · exact hid
  · -- remove_user_from_file
    intro sf user_id
    cases hu : select_user user_id st with
    | error e =>
      simp only [stateAfter, remove_user_from_file, hu]
      exact h
    | ok u =>
      simp only [remove_user_from_file, hu]
      by_cases hin : user_id ∉ st.fileUsers sf.id
      · rw [if_pos hin]
        exact h
      · rw [if_neg hin]
        constructor
        · intro r hr
          exact h.1 r ((List.eraseP_sublist _).mem hr)
        · intro r hr
          exact h.2 r hr
  · -- add_file_for_group
    intro user_id group_id file_id
    cases hfq : select_file file_id st with
    | error e =>
      simp only [stateAfter, add_file_for_group, hfq]
      exact h
    | ok f =>
      simp only [add_file_for_group, hfq]
      by_cases hcr : user_id ≠ f.creator_id
      · rw [if_pos hcr]
        exact h
      · rw [if_neg hcr]
        cases hgq : select_group group_id st with
        | error e => exact h
        | ok g =>
          simp only []
          by_cases hmem : user_id ∉ st.groupUsers g.id
          · rw [if_pos hmem]
            exact h
          · rw [if_neg hmem]
            by_cases hinf : file_id ∈ st.groupFiles g.id
            · rw [if_pos hinf]
              exact h
            · rw [if_neg hinf]
              constructor
              · intro r hr
                exact h.1 r hr
              · intro r hr
                rcases List.mem_append.mp hr with hr | hr
                · obtain ⟨⟨g0, hg0, hgid⟩, f0, hf0, hid⟩ := h.2 r hr
                  exact ⟨⟨g0, hg0, hgid⟩, f0, hf0, hid⟩
                · have hr' := List.mem_singleton.mp hr
                  subst hr'
                  obtain ⟨hgm, hgid⟩ := select_group_ok_mem hgq
                  obtain ⟨hfm, hfid⟩ := select_file_ok_mem hfq
                  exact ⟨⟨g, hgm, rfl⟩, f, hfm, hfid⟩
  · -- remove_file_from_group
    intro g file_id
    cases hfq : select_file file_id st with
    | error e =>
      simp only [stateAfter, remove_file_from_group, hfq]
      exact h
    | ok sf0 =>
      simp only [remove_file_from_group, hfq]
      by_cases hin : file_id ∉ st.groupFiles g.id
      · rw [if_pos hin]
        exact h
      · rw [if_neg hin]
        constructor
        · intro r hr
          exact h.1 r hr
        · intro r hr
          exact h.2 r ((List.eraseP_sublist _).mem hr)

/-- Witness for the C8 theorem: a concrete state satisfying referential
integrity, preserved by a sharing operation. -/
theorem C8_referential_integrity_witness :
    refIntegrity (stateAfter
      (add_file_to_user "u0" "u1" 1
        ⟨["u0", "u1"], [⟨1, "u0", "f.csv", "p", 10, 1, 1, none⟩],
          [⟨5, "u0", "g"⟩], [("u0", 1)], [(5, 1)], [("u0", 5)]⟩)
      ⟨["u0", "u1"], [⟨1, "u0", "f.csv", "p", 10, 1, 1, none⟩],
        [⟨5, "u0", "g"⟩], [("u0", 1)], [(5, 1)], [("u0", 5)]⟩) :=
  (C8_referential_integrity
    ⟨["u0", "u1"], [⟨1, "u0", "f.csv", "p", 10, 1, 1, none⟩],
      [⟨5, "u0", "g"⟩], [("u0", 1)], [(5, 1)], [("u0", 5)]⟩
    (by simp only [refIntegrity]; decide)).2.1 "u0" "u1" 1

end FDB.StorageService

namespace FDB.CalculationService

lemma calculate_bmi_group_eq {K : Type} [LinearOrderedField K] (x : K) :
    calculate_bmi_group x =
      if x < 16 then 1 else if x < 18.5 then 2 else if x < 25 then 3
      else if x < 30 then 4 else if x < 35 then 5 else if x < 40 then 6
      else 7 := by
  rw [calculate_bmi_group]
  by_cases h1 : x < 16
  · rw [if_pos h1, if_pos h1]
  · rw [if_neg h1, if_neg h1]
    push_neg at h1
    by_cases h2 : x < 18.5
    · rw [if_pos ⟨h1, h2⟩, if_pos h2]
    · rw [if_neg (fun hc => h2 hc.2), if_neg h2]
      push_neg at h2
      by_cases h3 : x < 25
      · rw [if_pos ⟨h2, h3⟩, if_pos h3]
      · rw [if_neg (fun hc => h3 hc.2), if_neg h3]
        push_neg at h3
        by_cases h4 : x < 30
        · rw [if_pos ⟨h3, h4⟩, if_pos h4]
        · rw [if_neg (fun hc => h4 hc.2), if_neg h4]
          push_neg at h4
          by_cases h5 : x < 35
          · rw [if_pos ⟨h4, h5⟩, if_pos h5]
          · rw [if_neg (fun hc => h5 hc.2), if_neg h5]
            push_neg at h5
            by_cases h6 : x < 40
            · rw [if_pos ⟨h5, h6⟩, if_pos h6]
            · rw [if_neg (fun hc => h6 hc.2), if_neg h6]

lemma calculate_bmi_group_range {K : Type} [LinearOrderedField K] (x : K) :
    1 ≤ calculate_bmi_group x ∧ calculate_bmi_group x ≤ 7 := by
  rw [calculate_bmi_group]
  split_ifs <;> norm_num

set_option maxHeartbeats 1600000 in
lemma calculate_bmi_group_mono {K : Type} [LinearOrderedField K] {x y : K}
    (hxy : x ≤ y) : calculate_bmi_group x ≤ calculate_bmi_group y := by
  rw [calculate_bmi_group_eq, calculate_bmi_group_eq]
  split_ifs <;> (first | (norm_num; done) | (exfalso; linarith))

lemma groupLetter_mem (g : Int) (h1 : 1 ≤ g) (h7 : g ≤ 7) :
    groupLetter g ∈ (['A', 'B', 'C', 'D', 'E', 'F', 'G'] : List Char) ∧
    (BMIDescription (groupLetter g)).isSome = true := by
  interval_cases g <;> exact ⟨by decide, by decide⟩

/-- C9: `calculate_bmi_group` is total and classifies into exactly seven
groups: the result is an integer between 1 and 7, the function is monotone
non-decreasing, its group boundaries are at 16, 18.5, 25, 30, 35 and 40
(third conjunct), and the letter `chr(group + 64)` used by
`get_bmi_simple` always resolves to one of A..G, so the `BMIDescription`
lookup always succeeds. -/
theorem C9_bmi_group {K : Type} [LinearOrderedField K] (x y : K) :
    (1 ≤ calculate_bmi_group x ∧ calculate_bmi_group x ≤ 7) ∧
    (x ≤ y → calculate_bmi_group x ≤ calculate_bmi_group y) ∧
    (calculate_bmi_group x =
      if x < 16 then 1 else if x < 18.5 then 2 else if x < 25 then 3
      else if x < 30 then 4 else if x < 35 then 5 else if x < 40 then 6
      else 7) ∧
    groupLetter (calculate_bmi_group x) ∈
      (['A', 'B', 'C', 'D', 'E', 'F', 'G'] : List Char) ∧
    (BMIDescription (groupLetter (calculate_bmi_group x))).isSome = true := by
  obtain ⟨r1, r7⟩ := calculate_bmi_group_range x
  obtain ⟨hmem, hsome⟩ := groupLetter_mem _ r1 r7
  exact ⟨⟨r1, r7⟩, fun hxy => calculate_bmi_group_mono hxy,
    calculate_bmi_group_eq x, hmem, hsome⟩

/-- Witness for the C9 theorem at concrete rational inputs. -/
theorem C9_bmi_group_witness :
    calculate_bmi_group (20 : ℚ) ≤ calculate_bmi_group (27 : ℚ) ∧
    (1 ≤ calculate_bmi_group (20 : ℚ) ∧ calculate_bmi_group (20 : ℚ) ≤ 7) ∧
    calculate_bmi_group (20 : ℚ) = 3 ∧ calculate_bmi_group (27 : ℚ) = 4 := by
  refine ⟨(C9_bmi_group (20 : ℚ) 27).2.1 (by decide),
    (C9_bmi_group (20 : ℚ) 27).1, ?_, ?_⟩
  · rw [(C9_bmi_group (20 : ℚ) 27).2.2.1]
    norm_num
  · rw [(C9_bmi_group (27 : ℚ) 27).2.2.1]
    norm_num

/-- C10: `get_bmi_simple` normalizes height before computing BMI: a
height strictly greater than 100 is divided by 100, a height less than or
equal to 100 (including exactly 100) is used unchanged, and the returned
bmi equals `m` divided by the square of the normalized height. -/
theorem C10_bmi_normalization {K : Type} [LinearOrderedField K]
    (m h : K) (d : Bool) :
    (h > 100 → (get_bmi_simple m h d).map BmiResult.bmi =
      some (m / (h / 100) ^ 2)) ∧
    (h ≤ 100 → h ≠ 0 → (get_bmi_simple m h d).map BmiResult.bmi =
      some (m / h ^ 2)) := by
  constructor
  · intro hgt
    have hne : h / 100 ≠ 0 :=
      div_ne_zero (by linarith) (by norm_num)
    simp only [get_bmi_simple, if_pos hgt, if_neg hne]
    cases d with
    | false => simp
    | true =>
      obtain ⟨r1, r7⟩ := calculate_bmi_group_range (m / (h / 100) ^ 2)
      obtain ⟨-, hsome⟩ := groupLetter_mem _ r1 r7
      obtain ⟨text, htext⟩ := Option.isSome_iff_exists.mp hsome
      rw [htext]
      simp
  · intro hle hne
    have hngt : ¬(h > 100) := not_lt.mpr hle
    simp only [get_bmi_simple, if_neg hngt, if_neg hne]
    cases d with
    | false => simp
    | true =>
      obtain ⟨r1, r7⟩ := calculate_bmi_group_range (m / h ^ 2)
      obtain ⟨-, hsome⟩ := groupLetter_mem _ r1 r7
      obtain ⟨text, htext⟩ := Option.isSome_iff_exists.mp hsome
      rw [htext]
      simp

/-- Witness for the C10 theorem at concrete rational inputs: a height of
175 (centimeters) and a height of 2 (meters). -/
theorem C10_bmi_normalization_witness :
    (get_bmi_simple (70 : ℚ) 175 true).map BmiResult.bmi =
      some (70 / (175 / 100) ^ 2) ∧
    (get_bmi_simple (70 : ℚ) 2 false).map BmiResult.bmi =
      some (70 / 2 ^ 2) := by
  constructor
  · exact (C10_bmi_normalization (70 : ℚ) 175 true).1 (by decide)
  · exact (C10_bmi_normalization (70 : ℚ) 2 false).2 (by decide) (by decide)

end FDB.CalculationService
